import Mathlib

/-!
Shallow embedding of the content-extraction-and-relevance pipeline of
`newspaper_sentiment_scraper.py` (NewspaperSentiment repository), together
with theorems settling the frozen claims C1 to C10 about its specification.

Python strings are modelled as Lean `String`, Python `None`-able values as
`Option`, Python floats (which here only ever hold exact multiples of 0.5)
as `Rat`, dictionaries with fixed key sets as structures, and the injected
HTTP / JSON collaborators as explicit function parameters returning
`Except Unit` results (an `Except.error` models a raised exception /
transport failure caught by the surrounding `try`).
-/

namespace NewsScraper

/-- Python whitespace class (the ASCII characters matched by `str.strip()`
and by the regex class used in `clean_text`). -/
def pyIsSpace (c : Char) : Bool :=
  c = ' ' || c = '\t' || c = '\n' || c = '\r' || c = '\x0b' || c = '\x0c'

/-- Characters of the regex word class (ASCII part): letters, digits, underscore. -/
def isWordChar (c : Char) : Bool :=
  c.isAlphanum || c = '_'

/-- Python `str.strip()` on a character list: drop whitespace at both ends. -/
def pyStripList (l : List Char) : List Char :=
  ((l.dropWhile pyIsSpace).reverse.dropWhile pyIsSpace).reverse

/-- Python `str.strip()`. -/
def pyStrip (s : String) : String :=
  String.mk (pyStripList s.data)

/-- Embeds the substitution of the regex replacing every maximal whitespace
run by a single space (`re.sub` of a whitespace-run pattern with one space,
from `clean_text`).  A run is contracted by dropping a whitespace character
whose successor is again whitespace, and mapping the final character of each
run to a plain space. -/
def collapseWs : List Char → List Char
  | [] => []
  | [c] => if pyIsSpace c then [' '] else [c]
  | c1 :: c2 :: cs =>
    if pyIsSpace c1 && pyIsSpace c2 then collapseWs (c2 :: cs)
    else (if pyIsSpace c1 then ' ' else c1) :: collapseWs (c2 :: cs)

/-- The boilerplate marker removed by `clean_text` (13 characters). -/
def adWord : List Char := "advertisement".data

/-- Case-insensitive test for the boilerplate marker at the head of the list. -/
def isAdHere (l : List Char) : Bool :=
  (l.take 13).map Char.toLower = adWord

/-- Worker for the boilerplate-removal substitution: scans left to right and,
at each occurrence of the marker, removes it together with the following
whitespace run, exactly like the case-insensitive `re.sub` in `clean_text`.
The `Nat` argument is recursion fuel, always instantiated at the length of
the list, which every step strictly decreases. -/
def stripAdsGo : Nat → List Char → List Char
  | 0, l => l
  | _, [] => []
  | fuel + 1, c :: cs =>
    if isAdHere (c :: cs) then stripAdsGo fuel ((cs.drop 12).dropWhile pyIsSpace)
    else c :: stripAdsGo fuel cs

/-- Removal of all occurrences of the boilerplate marker plus trailing
whitespace (second `re.sub` of `clean_text`). -/
def stripAds (l : List Char) : List Char :=
  stripAdsGo l.length l

namespace ArticleValidator

/-- Embeds `ArticleValidator.clean_text`: empty input maps to the empty
string; otherwise strip, collapse internal whitespace runs to single
spaces, then delete case-insensitive occurrences of the boilerplate marker
together with any whitespace following them. -/
def clean_text (text : String) : String :=
  if text = "" then ""
  else String.mk (stripAds (collapseWs (pyStripList text.data)))

/-- A character-class pattern: one predicate per character, matched in
sequence (enough to express the two fixed date regexes of the source). -/
def patMatchesHere : List (Char → Bool) → List Char → Bool
  | [], _ => true
  | _ :: _, [] => false
  | p :: ps, c :: cs => p c && patMatchesHere ps cs

/-- Regex-style search: the pattern matches at some position of the list. -/
def patSearch (pat : List (Char → Bool)) : List Char → Bool
  | [] => patMatchesHere pat []
  | c :: cs => patMatchesHere pat (c :: cs) || patSearch pat cs

/-- Digit character class. -/
def dd (c : Char) : Bool := c.isDigit

/-- Literal character class. -/
def lit (x : Char) : Char → Bool := fun c => c = x

/-- The ISO date-time pattern of `normalize_date` (four digits, dash, two
digits, dash, two digits, the letter T, then three colon-separated
two-digit groups). -/
def iso_datetime_pattern : List (Char → Bool) :=
  [dd, dd, dd, dd, lit '-', dd, dd, lit '-', dd, dd, lit 'T',
   dd, dd, lit ':', dd, dd, lit ':', dd, dd]

/-- The simple date pattern of `normalize_date` (four digits, dash, two
digits, dash, two digits). -/
def simple_date_pattern : List (Char → Bool) :=
  [dd, dd, dd, dd, lit '-', dd, dd, lit '-', dd, dd]

/-- The list `date_patterns` of `normalize_date`, in source order. -/
def date_patterns : List (List (Char → Bool)) :=
  [iso_datetime_pattern, simple_date_pattern]

/-- Embeds `ArticleValidator.normalize_date`: falsy input (absent key or
empty string) maps to `none`; otherwise the loop over `date_patterns`
returns the input string whether or not some pattern matches. -/
def normalize_date (date_str : Option String) : Option String :=
  match date_str with
  | none => none
  | some s =>
    if s = "" then none
    else if date_patterns.any (fun pat => patSearch pat s.data) then some s
    else some s

end ArticleValidator

/-- Scheme characters accepted by the URL parser after the leading letter. -/
def isSchemeChar (c : Char) : Bool :=
  c.isAlphanum || c = '+' || c = '-' || c = '.'

/-- Splits a leading scheme candidate at the first colon, provided every
character before the colon is a scheme character; otherwise no split. -/
def splitSchemeAux : List Char → List Char → Option (List Char × List Char)
  | _, [] => none
  | acc, c :: cs =>
    if c = ':' then some (acc.reverse, cs)
    else if isSchemeChar c then splitSchemeAux (c :: acc) cs
    else none

/-- Embeds the part of `urllib.parse.urlparse` observed by the validator:
the scheme (lower-cased, only when the part before the colon is non-empty,
starts with a letter and contains scheme characters only) and the netloc
(the segment after a leading double slash of the remainder, up to the first
slash, question mark or hash). -/
def urlparse_scheme_netloc (url : String) : String × String :=
  let split := splitSchemeAux [] url.data
  let schemeRest : List Char × List Char :=
    match split with
    | some (s, r) =>
      if (s.head?.map Char.isAlpha).getD false then (s.map Char.toLower, r)
      else ([], url.data)
    | none => ([], url.data)
  let netloc : List Char :=
    if schemeRest.2.take 2 = ['/', '/'] then
      (schemeRest.2.drop 2).takeWhile (fun c => c ≠ '/' && c ≠ '?' && c ≠ '#')
    else []
  (String.mk schemeRest.1, String.mk netloc)

/-- Embeds `ArticleValidator.is_valid_url`: both the parsed scheme and the
parsed netloc must be truthy (non-empty). -/
def is_valid_url (url : String) : Bool :=
  let parsed := urlparse_scheme_netloc url
  parsed.1 ≠ "" && parsed.2 ≠ ""

/-- Test whether the first list occurs as the initial segment of the second. -/
def matchesHere : List Char → List Char → Bool
  | [], _ => true
  | _ :: _, [] => false
  | a :: as, b :: bs => a = b && matchesHere as bs

/-- Test whether the first list occurs contiguously anywhere in the second
(the semantics of the Python substring operator on strings). -/
def occursIn (kw : List Char) (text : List Char) : Bool :=
  matchesHere kw text ||
    match text with
    | [] => false
    | _ :: cs => occursIn kw cs

/-- Python substring containment on strings. -/
def pySubstr (kw s : String) : Bool :=
  occursIn kw.data s.data

/-- Python `str.lower` (ASCII case folding, character by character). -/
def pyLower (s : String) : String :=
  String.mk (s.data.map Char.toLower)

/-- Word-boundary condition of the regex anchor at a position: the wordness
of the character to the left (absent counts as non-word) differs from the
wordness of the character to the right. -/
def boundaryOk (left right : Option Char) : Bool :=
  (match left with | none => false | some c => isWordChar c) !=
  (match right with | none => false | some c => isWordChar c)

/-- The keyword occurs at the head of `text`, delimited by word boundaries
on both sides; `prev` is the character immediately before this position. -/
def boundedHere (prev : Option Char) (kw text : List Char) : Bool :=
  matchesHere kw text &&
  boundaryOk prev kw.head? &&
  boundaryOk kw.getLast? ((text.drop kw.length).head?)

/-- Scan of the text for a word-boundary-delimited occurrence of the
keyword, tracking the preceding character. -/
def boundedSearch (kw : List Char) (prev : Option Char) : List Char → Bool
  | [] => boundedHere prev kw []
  | c :: cs => boundedHere prev kw (c :: cs) || boundedSearch kw (some c) cs

/-- Embeds the regex search for an escaped keyword wrapped in word-boundary
anchors, as built in `check_relevance_weighted`. -/
def re_search_bounded (kw text : String) : Bool :=
  boundedSearch kw.data none text.data

/-- The tiered keyword table `RELEVANCE_KEYWORDS`, in source (insertion)
order. -/
def RELEVANCE_KEYWORDS : List (String × List String) :=
  [("high",
    ["mayor", "mayoral", "city council", "councilmember", "councilwoman",
     "councilman", "seattle politics", "election", "candidate", "municipal",
     "governance"]),
   ("medium",
    ["budget", "housing", "homeless", "homelessness", "transportation",
     "zoning", "public safety", "police", "SPD", "infrastructure", "taxes"]),
   ("low",
    ["policy", "development", "parks", "fire department", "referendum",
     "ordinance", "legislation", "ballot measure"])]

/-- The tier-weight dictionary `weights` of `check_relevance_weighted`. -/
def weights : List (String × Rat) :=
  [("high", 3), ("medium", 2), ("low", 1)]

/-- Weight lookup (the keys iterated over are always present). -/
def weightOf (level : String) : Rat :=
  (weights.lookup level).getD 0

/-- First scan of `check_relevance_weighted`: for each tier and term, in
table order, a word-boundary-delimited, case-insensitive match anywhere in
the combined text contributes the term together with the full tier weight. -/
def basePairs (text : String) : List (String × Rat) :=
  RELEVANCE_KEYWORDS.flatMap (fun p =>
    (p.2.filter (fun kw => re_search_bounded (pyLower kw) text)).map
      (fun kw => (kw, weightOf p.1)))

/-- Second scan of `check_relevance_weighted`: for each tier and term, in
table order, plain case-insensitive substring containment in the title
contributes the term suffixed with " (title)" together with half the tier
weight (the 50 percent title bonus). -/
def titlePairs (title : String) : List (String × Rat) :=
  RELEVANCE_KEYWORDS.flatMap (fun p =>
    (p.2.filter (fun kw => pySubstr (pyLower kw) (pyLower title))).map
      (fun kw => (kw ++ " (title)", weightOf p.1 * (1 / 2))))

/-- Score accumulator: sum of the weights of a match list, starting at 0. -/
def sumSnd (l : List (String × Rat)) : Rat :=
  l.foldl (fun acc p => acc + p.2) 0

/-- Embeds `check_relevance_weighted`: lower-case the title-plus-content
text, collect full-weight word-bounded matches, then half-weight substring
title matches, and accept unconditionally (the threshold is disabled). -/
def check_relevance_weighted (title content : String) : Bool × List String × Rat :=
  let text := pyLower (title ++ " " ++ content)
  let base := basePairs text
  let bonus := titlePairs title
  (true, (base ++ bonus).map Prod.fst, sumSnd (base ++ bonus))

/-- A parsed document element, as observed by the extractor: its text and
its attribute dictionary. -/
structure Element where
  text : String
  attrs : List (String × String)
deriving DecidableEq

/-- Attribute lookup with default (the element `get` call of the meta
branch). -/
def Element.getAttr (e : Element) (name dflt : String) : String :=
  ((e.attrs.lookup name).getD dflt)

/-- A parsed document, modelled extensionally by the finite table of
selector results the extractor can query. -/
structure Soup where
  rules : List (String × List Element)
deriving DecidableEq

/-- Selector query on the document (`soup.select`); a selector absent from
the table matches no element. -/
def Soup.select (soup : Soup) (selector : String) : List Element :=
  (soup.rules.lookup selector).getD []

/-- Python `str.startswith` (the test selecting the meta-attribute branch
of the extractor). -/
def strStartsWith (s pre : String) : Bool :=
  matchesHere pre.data s.data

/-- Python `' '.join` on a list of strings. -/
def join_space : List String → String
  | [] => ""
  | [s] => s
  | s :: rest => s ++ " " ++ join_space rest

/-- Embeds `BaseScraper._extract_with_fallback`: try the selectors in
order; the first selector matching at least one element decides the result
(attribute value of the first element for meta selectors, whitespace-joined
stripped texts of all matched elements otherwise) even when that result is
the empty string; only a selector matching no element falls through to the
next. -/
def extract_with_fallback (soup : Soup) : List String → String
  | [] => ""
  | selector :: rest =>
    match soup.select selector with
    | [] => extract_with_fallback soup rest
    | e :: es =>
      if strStartsWith selector "meta" then e.getAttr "content" ""
      else join_space ((e :: es).map (fun el => pyStrip el.text))

/-- The per-site selector dictionary handed to the extractor, with its
three field keys (an absent key is the empty selector list, matching the
dictionary `get` with default used by the source). -/
structure Selectors where
  title : List String
  content : List String
  date : List String

/-- The field dictionary a successful extraction returns. -/
structure Fields where
  title : String
  content : String
  publish_date : String
deriving DecidableEq

/-- Shared tail of both extraction paths: run the three selector fallbacks,
fail when title and content are both empty, and otherwise substitute the
placeholder for an empty title and fall back to the title for empty
content (the `or` defaults of the returned dictionary). -/
def extract_fields (soup : Soup) (selectors : Selectors) : Option Fields :=
  let title := extract_with_fallback soup selectors.title
  let content := extract_with_fallback soup selectors.content
  let date := extract_with_fallback soup selectors.date
  if title = "" && content = "" then none
  else some ⟨if title = "" then "No title" else title,
             if content = "" then title else content,
             date⟩

/-- The JSON shape `archived_snapshots.closest.{available, url}` returned
by the archive availability endpoint; every level optional, so malformed
replies are representable. -/
structure ClosestSnapshot where
  available : Option Bool
  url : Option String

/-- The `archived_snapshots` member of the availability reply. -/
structure ArchivedSnapshots where
  closest : Option ClosestSnapshot

/-- A parsed availability reply. -/
structure ArchiveJson where
  archived_snapshots : Option ArchivedSnapshots

/-- The availability-endpoint URL built by `get_wayback_url`, with the
optional timestamp hint. -/
def wayback_api_url (original_url : String) (timestamp : Option String) : String :=
  match timestamp with
  | some ts =>
    "http://archive.org/wayback/available?url=" ++ original_url ++ "&timestamp=" ++ ts
  | none => "http://archive.org/wayback/available?url=" ++ original_url

/-- The body of the `try` block of `get_wayback_url` over an injected
HTTP-and-JSON collaborator: an `Except.error` of the collaborator models a
network error, timeout or JSON decode failure; the bare item accesses after
the truthiness test model the key lookups that raise on an unexpectedly
shaped reply. -/
def get_wayback_url_body (getJson : String → Except Unit ArchiveJson)
    (original_url : String) (timestamp : Option String) : Except Unit (Option String) :=
  match getJson (wayback_api_url original_url timestamp) with
  | .error e => .error e
  | .ok data =>
    let availTruthy : Bool :=
      match data.archived_snapshots with
      | none => false
      | some snaps =>
        match snaps.closest with
        | none => false
        | some c => c.available.getD false
    if availTruthy then
      match data.archived_snapshots with
      | none => .error ()
      | some snaps =>
        match snaps.closest with
        | none => .error ()
        | some c =>
          match c.url with
          | none => .error ()
          | some u => .ok (some u)
    else .ok none

/-- Embeds `get_wayback_url`: the enclosing `except` catches every failure
of the body and degrades it to no snapshot. -/
def get_wayback_url (getJson : String → Except Unit ArchiveJson)
    (original_url : String) (timestamp : Option String) : Option String :=
  match get_wayback_url_body getJson original_url timestamp with
  | .error _ => none
  | .ok r => r

/-- The descending list of known-recent timestamp buckets of
`get_recent_wayback_urls`. -/
def wayback_timestamps : List String :=
  ["20250130", "20250101", "20241201", "20241101", "20241001", "20240901",
   "20240801", "20240701", "20240601", "20240501", "20240401", "20240301"]

/-- Embeds `get_recent_wayback_urls`: query the first `limit` timestamp
buckets and collect the snapshot URLs of the successful lookups. -/
def get_recent_wayback_urls (getJson : String → Except Unit ArchiveJson)
    (base_url : String) (limit : Nat) : List String :=
  (wayback_timestamps.take limit).filterMap
    (fun ts => get_wayback_url getJson base_url (some ts))

/-- Embeds `BaseScraper._try_wayback_extraction`: resolve an archival
snapshot of the URL, fetch it (any fetch failure is caught and yields no
result; the snapshot fetch performs no status check), and extract fields
from the snapshot document. -/
def try_wayback_extraction (fetch : String → Except Unit (Nat × Soup))
    (getJson : String → Except Unit ArchiveJson)
    (url : String) (selectors : Selectors) : Option Fields :=
  match get_wayback_url getJson url none with
  | none => none
  | some wurl =>
    match fetch wurl with
    | .error _ => none
    | .ok (_, soup) => extract_fields soup selectors

/-- Embeds `BaseScraper.extract_article_content`: fetch the live URL (the
collaborator returns the HTTP status and the parsed document); a transport
error or an error status (400 or above, raised by the status check) falls
back to archival extraction; a successful live fetch extracts fields
directly, returning no result when title and content are both empty. -/
def extract_article_content (fetch : String → Except Unit (Nat × Soup))
    (getJson : String → Except Unit ArchiveJson)
    (url : String) (selectors : Selectors) : Option Fields :=
  match fetch url with
  | .error _ => try_wayback_extraction fetch getJson url selectors
  | .ok (status, soup) =>
    if 400 ≤ status then try_wayback_extraction fetch getJson url selectors
    else extract_fields soup selectors

/-- The process-wide configuration dataclass `ScrapingConfig` (delays as
exact rationals). -/
structure ScrapingConfig where
  max_pages : Nat
  max_articles_per_source : Nat
  request_timeout : Nat
  delay_between_requests : Rat
  delay_between_sources : Rat
  min_content_length : Nat
  max_content_length : Nat
  use_wayback_fallback : Bool
  max_wayback_attempts : Nat

/-- The dataclass field defaults, which apply when the configuration file
is absent. -/
def default_config : ScrapingConfig :=
  ⟨1, 10, 10, 1, 2, 100, 1000, true, 2⟩

/-- A raw candidate dictionary arriving at `process_article_data`; each
field is optional because the corresponding dictionary key may be absent. -/
structure RawArticle where
  url : Option String
  title : Option String
  content : Option String
  source : Option String
  publish_date : Option String
  matched_keywords : Option (List String)
  relevance_score : Option Rat

/-- A processed article record, one row of the aggregation data frame,
with the persisted columns. -/
structure ProcessedArticle where
  url : String
  source : String
  title : String
  content : String
  publish_date : Option String
  matched_keywords : List String
  relevance_score : Rat
  scraped_at : String
  content_length : Nat
deriving DecidableEq

/-- Embeds `process_article_data` (`now` stands for the capture-time stamp):
reject when one of the three required keys is absent or the URL fails
validation; otherwise emit the record with cleaned title and content,
normalized date, defaulted source, keyword and score fields, and the length
of the raw content. -/
def process_article_data (raw : RawArticle) (now : String) : Option ProcessedArticle :=
  match raw.url, raw.title, raw.content with
  | some u, some t, some c =>
    if is_valid_url u then
      some ⟨u,
            raw.source.getD "Unknown",
            ArticleValidator.clean_text t,
            ArticleValidator.clean_text c,
            ArticleValidator.normalize_date raw.publish_date,
            raw.matched_keywords.getD [],
            raw.relevance_score.getD 0,
            now,
            c.length⟩
    else none
  | _, _, _ => none

/-- Worker for duplicate removal keeping first occurrences: a row whose key
was already seen is dropped, every other row is kept and its key recorded. -/
def drop_duplicates_go (key : ProcessedArticle → String) :
    List String → List ProcessedArticle → List ProcessedArticle
  | _, [] => []
  | seen, r :: rs =>
    if seen.contains (key r) then drop_duplicates_go key seen rs
    else r :: drop_duplicates_go key (key r :: seen) rs

/-- Embeds one `drop_duplicates(subset=[k], keep='first')` pass of the
aggregation step: rows with a key equal to an earlier row's key are
removed, row order is otherwise preserved. -/
def drop_duplicates_by (key : ProcessedArticle → String)
    (rows : List ProcessedArticle) : List ProcessedArticle :=
  drop_duplicates_go key [] rows

/-- The two sequential deduplication passes of the aggregation step: first
by exact URL, then by exact title, each keeping first occurrences. -/
def dedup_url_title (rows : List ProcessedArticle) : List ProcessedArticle :=
  drop_duplicates_by (fun r => r.title) (drop_duplicates_by (fun r => r.url) rows)

/-- Comparison key of the final sort: the relevance score, ascending. -/
def score_le (a b : ProcessedArticle) : Prop :=
  a.relevance_score ≤ b.relevance_score

instance : DecidableRel score_le :=
  fun a b => inferInstanceAs (Decidable (a.relevance_score ≤ b.relevance_score))

instance : IsTotal ProcessedArticle score_le :=
  ⟨fun a b => le_total a.relevance_score b.relevance_score⟩

instance : IsTrans ProcessedArticle score_le :=
  ⟨fun _ _ _ h1 h2 => le_trans h1 h2⟩

/-- Embeds the descending score sort of the aggregation step, the data
frame sort on the relevance-score column with descending order and the
default sort kind.  For a descending sort the library first reverses the
value array together with its index array, then takes a stable ascending
argsort (the default algorithm degenerates to a stable insertion sort on
collections of fewer than sixteen rows, the regime of every statement
proved about this model), and finally reverses the resulting indexer — the
double-reversal construction that makes descending sorts stable.  On the
row list this is: reverse, stable ascending sort, reverse; the net effect
is a descending order in which tied rows keep their input order. -/
def sort_values_desc (rows : List ProcessedArticle) : List ProcessedArticle :=
  (List.insertionSort score_le rows.reverse).reverse

/-- The record-list part of `main`'s aggregation: the two deduplication
passes followed by the descending score sort. -/
def aggregate_results (rows : List ProcessedArticle) : List ProcessedArticle :=
  sort_values_desc (dedup_url_title rows)

/-! Theorems settling the claims. -/

/-- Claim C10: date normalization is the identity on non-empty input, and
returns nothing exactly when the input is an absent key or the empty
string, whether or not a recognized date pattern matches. -/
theorem C10_normalize_date_identity :
    (∀ s : String, s ≠ "" → ArticleValidator.normalize_date (some s) = some s) ∧
    (∀ d : Option String,
      ArticleValidator.normalize_date d = none ↔ d = none ∨ d = some "") := by
  constructor
  · intro s hs
    simp only [ArticleValidator.normalize_date, if_neg hs]
    split <;> rfl
  · intro d
    cases d with
    | none => simp [ArticleValidator.normalize_date]
    | some s =>
      by_cases hs : s = ""
      · subst hs
        simp [ArticleValidator.normalize_date]
      · simp only [ArticleValidator.normalize_date, if_neg hs]
        constructor
        · intro h
          split at h <;> cases h
        · rintro (h | h)
          · cases h
          · exact absurd (Option.some.inj h) hs

/-- Witness for C10 at a concrete non-empty date string. -/
theorem C10_witness :
    ArticleValidator.normalize_date (some "2025-01-02") = some "2025-01-02" :=
  C10_normalize_date_identity.1 "2025-01-02" (by decide)

/-- Claim C9: both archival-resolver operations are best-effort.  A
collaborator failure, or a caught exception of the lookup body (which
covers unexpectedly shaped replies), degrades the single lookup to no
snapshot; a snapshot URL is returned only from a well-shaped reply with an
available snapshot; the multi lookup returns at most `limit` URLs, each
coming from a successful single lookup, and no failure escapes. -/
theorem C9_wayback_best_effort :
    (∀ (getJson : String → Except Unit ArchiveJson) (url : String) (ts : Option String),
      getJson (wayback_api_url url ts) = Except.error () →
      get_wayback_url getJson url ts = none) ∧
    (∀ (getJson : String → Except Unit ArchiveJson) (url : String) (ts : Option String),
      get_wayback_url_body getJson url ts = Except.error () →
      get_wayback_url getJson url ts = none) ∧
    (∀ (getJson : String → Except Unit ArchiveJson) (url : String) (ts : Option String)
       (u : String),
      get_wayback_url getJson url ts = some u →
      ∃ data snaps c, getJson (wayback_api_url url ts) = Except.ok data ∧
        data.archived_snapshots = some snaps ∧ snaps.closest = some c ∧
        c.available = some true ∧ c.url = some u) ∧
    (∀ (getJson : String → Except Unit ArchiveJson) (base : String) (limit : Nat),
      (get_recent_wayback_urls getJson base limit).length ≤ limit ∧
      ∀ u ∈ get_recent_wayback_urls getJson base limit,
        ∃ ts ∈ wayback_timestamps.take limit,
          get_wayback_url getJson base (some ts) = some u) := by
  refine ⟨?_, ?_, ?_, ?_⟩
  · intro g url ts h
    simp [get_wayback_url, get_wayback_url_body, h]
  · intro g url ts h
    simp [get_wayback_url, h]
  · intro g url ts u h
    unfold get_wayback_url at h
    cases hb : get_wayback_url_body g url ts with
    | error e => rw [hb] at h; cases h
    | ok r =>
      rw [hb] at h
      simp only [] at h
      subst h
      unfold get_wayback_url_body at hb
      cases hj : g (wayback_api_url url ts) with
      | error e => rw [hj] at hb; cases hb
      | ok data =>
        rw [hj] at hb
        obtain ⟨as⟩ := data
        cases as with
        | none => simp at hb
        | some snaps =>
          obtain ⟨cl⟩ := snaps
          cases cl with
          | none => simp at hb
          | some c =>
            obtain ⟨av, curl⟩ := c
            cases av with
            | none => simp at hb
            | some b =>
              cases b with
              | false => simp at hb
              | true =>
                cases curl with
                | none => simp at hb
                | some v =>
                  simp only [Option.getD, if_true] at hb
                  simp at hb
                  subst hb
                  exact ⟨_, _, _, rfl, rfl, rfl, rfl, rfl⟩
  · intro g base limit
    refine ⟨?_, ?_⟩
    · exact le_trans (List.length_filterMap_le _ _) (List.length_take_le _ _)
    · intro u hu
      rw [get_recent_wayback_urls, List.mem_filterMap] at hu
      obtain ⟨ts, hts, hgw⟩ := hu
      exact ⟨ts, hts, hgw⟩

/-- A collaborator that always fails, for the C9 witness. -/
def errJson : String → Except Unit ArchiveJson := fun _ => .error ()

/-- Witness for C9: with an always-failing collaborator the single lookup
degrades to no snapshot. -/
theorem C9_witness : get_wayback_url errJson "http://example.com" none = none :=
  C9_wayback_best_effort.1 errJson "http://example.com" none rfl

/-- A raw candidate with a valid URL whose title and content are both
empty. -/
def raw_both_empty : RawArticle :=
  ⟨some "http://example.com/a", some "", some "", none, none, none, none⟩

/-- Counterexample to claim C2 as stated: a candidate whose title and
content are both empty after cleaning is not dropped by the
validation/cleaning step, and it survives with an empty title. -/
theorem C2_counterexample :
    process_article_data raw_both_empty "t0" ≠ none ∧
    (process_article_data raw_both_empty "t0").map (fun r => r.title) = some "" := by
  decide

/-- Claim C2 (amended): the validation/cleaning step drops a candidate
exactly when one of the three required keys is absent or its URL fails URI
validation; emptiness of the cleaned title and content never causes a
drop, and every surviving record carries the original, validated URL
(while its title may be empty). -/
theorem C2_amended_validation :
    ∀ (raw : RawArticle) (now : String),
      (process_article_data raw now = none ↔
        raw.url = none ∨ raw.title = none ∨ raw.content = none ∨
        is_valid_url (raw.url.getD "") = false) ∧
      (∀ rec, process_article_data raw now = some rec →
        rec.url = raw.url.getD "" ∧ is_valid_url rec.url = true) := by
  intro raw now
  obtain ⟨u, t, c, src, pd, mk, rs⟩ := raw
  cases u with
  | none => simp [process_article_data]
  | some u =>
    cases t with
    | none => simp [process_article_data]
    | some t =>
      cases c with
      | none => simp [process_article_data]
      | some c =>
        by_cases hv : is_valid_url u
        · refine ⟨by simp [process_article_data, hv], ?_⟩
          intro rec hrec
          simp only [process_article_data, if_pos hv, Option.some.injEq] at hrec
          subst hrec
          exact ⟨rfl, hv⟩
        · refine ⟨by simp [process_article_data, hv, Bool.not_eq_true] , ?_⟩
          intro rec hrec
          simp [process_article_data, hv] at hrec

/-- A well-formed raw candidate for the C2 witness. -/
def raw_good : RawArticle :=
  ⟨some "http://example.com/a", some "Title", some "Body", none, none, none, none⟩

/-- Witness for C2 at a concrete surviving candidate: the emitted record
keeps the validated URL. -/
theorem C2_witness :
    is_valid_url "http://example.com/a" = true :=
  ((C2_amended_validation raw_good "t0").2
    ⟨"http://example.com/a", "Unknown", "Title", "Body", none, [], 0, "t0", 4⟩
    (by decide)).2

/-- A document whose content selector matches but whose title selectors
match nothing. -/
def soup_no_title : Soup := ⟨[("p", [⟨"body", []⟩])]⟩

/-- A fetch collaborator that always succeeds with status 200 and the
titleless document. -/
def fetch_no_title : String → Except Unit (Nat × Soup) :=
  fun _ => .ok (200, soup_no_title)

/-- Selector set trying h1 for the title and p for the content. -/
def selectors_basic : Selectors := ⟨["h1"], ["p"], []⟩

/-- Counterexample to claim C3 as stated: a successful extraction whose
extracted title is empty returns the placeholder value, so an empty title
is substituted after all. -/
theorem C3_counterexample :
    extract_with_fallback soup_no_title selectors_basic.title = "" ∧
    extract_article_content fetch_no_title errJson "http://example.com/x" selectors_basic
      = some ⟨"No title", "body", ""⟩ := by
  constructor
  · rfl
  · rfl

/-- Claim C3 (amended): for every successful extraction the returned title
is never empty because an empty extracted title is substituted by the
placeholder "No title", while an empty extracted content falls back to the
extracted title. -/
theorem C3_amended_title_placeholder :
    (∀ (fetch : String → Except Unit (Nat × Soup))
       (getJson : String → Except Unit ArchiveJson)
       (url : String) (selectors : Selectors) (f : Fields),
      extract_article_content fetch getJson url selectors = some f → f.title ≠ "") ∧
    (∀ (soup : Soup) (selectors : Selectors) (f : Fields),
      extract_fields soup selectors = some f →
        (extract_with_fallback soup selectors.title = "" → f.title = "No title") ∧
        (extract_with_fallback soup selectors.content = "" →
          f.content = extract_with_fallback soup selectors.title)) := by
  have hfields : ∀ (soup : Soup) (selectors : Selectors) (f : Fields),
      extract_fields soup selectors = some f →
        (extract_with_fallback soup selectors.title = "" → f.title = "No title") ∧
        (extract_with_fallback soup selectors.content = "" →
          f.content = extract_with_fallback soup selectors.title) := by
    intro soup selectors f hf
    unfold extract_fields at hf
    by_cases ht : extract_with_fallback soup selectors.title = "" <;>
      by_cases hc : extract_with_fallback soup selectors.content = "" <;>
      simp [ht, hc] at hf <;>
      subst hf <;>
      simp [ht, hc]
  have htitle : ∀ (soup : Soup) (selectors : Selectors) (f : Fields),
      extract_fields soup selectors = some f → f.title ≠ "" := by
    intro soup selectors f hf
    unfold extract_fields at hf
    by_cases ht : extract_with_fallback soup selectors.title = "" <;>
      by_cases hc : extract_with_fallback soup selectors.content = "" <;>
      simp [ht, hc] at hf <;> subst hf <;> simp [ht, hc]
  refine ⟨?_, hfields⟩
  intro fetch getJson url selectors f hf
  unfold extract_article_content try_wayback_extraction at hf
  repeat' split at hf
  all_goals first
    | cases hf
    | exact htitle _ _ _ hf

/-- Witness for C3: the concrete successful extraction above has a
non-empty title. -/
theorem C3_witness : (Fields.mk "No title" "body" "").title ≠ "" :=
  C3_amended_title_placeholder.1 fetch_no_title errJson "http://example.com/x"
    selectors_basic ⟨"No title", "body", ""⟩ (by decide)

/-- A document where the headline selector matches an element whose text
is empty while the h1 selector matches an element with real text. -/
def soup_empty_headline : Soup :=
  ⟨[(".headline", [⟨"", []⟩]), ("h1", [⟨"Big News", []⟩])]⟩

/-- Counterexample to claim C4 as stated: with the headline selector
first, h1 is the first selector yielding a non-empty result, yet the
extraction returns the empty headline text instead of the h1 text — the
first selector matching elements wins, not the first yielding non-empty. -/
theorem C4_counterexample :
    extract_with_fallback soup_empty_headline [".headline", "h1"] = "" ∧
    extract_with_fallback soup_empty_headline ["h1"] = "Big News" ∧
    ("" : String) ≠ "Big News" := by
  refine ⟨by decide, by decide, by decide⟩

/-- Claim C4 (amended): selectors are tried in order and the first selector
matching at least one element decides the result, even when its joined
text is empty; in the concrete scenario with the headline selector listed
before h1 and both present, the result is the headline text, never the h1
text. -/
theorem C4_amended_first_matching_selector :
    (∀ (soup : Soup) (selector : String) (rest : List String),
      soup.select selector = [] →
      extract_with_fallback soup (selector :: rest) = extract_with_fallback soup rest) ∧
    (∀ (soup : Soup) (selector : String) (rest : List String) (e : Element)
       (es : List Element),
      soup.select selector = e :: es →
      extract_with_fallback soup (selector :: rest) =
        (if strStartsWith selector "meta" then e.getAttr "content" ""
         else join_space ((e :: es).map (fun el => pyStrip el.text)))) ∧
    (∀ (headlineText : String) (h1Elems : List Element) (rest : List String),
      extract_with_fallback
        ⟨[(".headline", [⟨headlineText, []⟩]), ("h1", h1Elems)]⟩
        (".headline" :: rest) = pyStrip headlineText) := by
  have hstep : ∀ (soup : Soup) (selector : String) (rest : List String),
      extract_with_fallback soup (selector :: rest) =
        match soup.select selector with
        | [] => extract_with_fallback soup rest
        | e :: es =>
          if strStartsWith selector "meta" then e.getAttr "content" ""
          else join_space ((e :: es).map (fun el => pyStrip el.text)) :=
    fun _ _ _ => rfl
  refine ⟨?_, ?_, ?_⟩
  · intro soup selector rest h
    rw [hstep, h]
  · intro soup selector rest e es h
    rw [hstep, h]
  · intro headlineText h1Elems rest
    have hsel : Soup.select ⟨[(".headline", [⟨headlineText, []⟩]), ("h1", h1Elems)]⟩
        ".headline" = [⟨headlineText, []⟩] := rfl
    rw [hstep, hsel]
    have hmeta : strStartsWith ".headline" "meta" = false := by decide
    simp [hmeta, join_space]

/-- Witness for C4: a selector matching no element falls through to the
next selector on a concrete document. -/
theorem C4_witness :
    extract_with_fallback soup_empty_headline ["missing", "h1"] =
      extract_with_fallback soup_empty_headline ["h1"] :=
  C4_amended_first_matching_selector.1 soup_empty_headline "missing" ["h1"] (by decide)

/-- Folding the score accumulator from an arbitrary start adds the list
total to the start. -/
theorem sumSnd_foldl (l : List (String × Rat)) :
    ∀ init : Rat, l.foldl (fun acc p => acc + p.2) init = init + sumSnd l := by
  induction l with
  | nil => intro init; simp [sumSnd]
  | cons p t ih =>
    intro init
    simp only [sumSnd, List.foldl_cons] at *
    rw [ih (init + p.2), ih (0 + p.2)]
    ring

/-- The score accumulator distributes over list concatenation. -/
theorem sumSnd_append (l1 l2 : List (String × Rat)) :
    sumSnd (l1 ++ l2) = sumSnd l1 + sumSnd l2 := by
  simp only [sumSnd, List.foldl_append]
  rw [sumSnd_foldl]
  rfl

/-- Every title-scan pair comes from a keyword of the table contained
case-insensitively in the title, carries the " (title)" suffix, and
contributes exactly half the tier weight. -/
theorem titlePairs_mem {title : String} {p : String × Rat}
    (hp : p ∈ titlePairs title) :
    ∃ level kws kw, (level, kws) ∈ RELEVANCE_KEYWORDS ∧ kw ∈ kws ∧
      pySubstr (pyLower kw) (pyLower title) = true ∧
      p = (kw ++ " (title)", weightOf level * (1 / 2)) := by
  simp only [titlePairs, List.mem_flatMap, List.mem_map, List.mem_filter] at hp
  obtain ⟨q, hq, kw, ⟨hkw, hsub⟩, hpeq⟩ := hp
  refine ⟨q.1, q.2, kw, ?_, hkw, hsub, hpeq.symm⟩
  cases q
  exact hq

/-- Every base-scan pair comes from a keyword of the table with a
word-boundary-delimited case-insensitive occurrence in the scanned text,
and contributes the full tier weight. -/
theorem basePairs_mem {text : String} {p : String × Rat}
    (hp : p ∈ basePairs text) :
    ∃ level kws kw, (level, kws) ∈ RELEVANCE_KEYWORDS ∧ kw ∈ kws ∧
      re_search_bounded (pyLower kw) text = true ∧
      p = (kw, weightOf level) := by
  simp only [basePairs, List.mem_flatMap, List.mem_map, List.mem_filter] at hp
  obtain ⟨q, hq, kw, ⟨hkw, hsub⟩, hpeq⟩ := hp
  refine ⟨q.1, q.2, kw, ?_, hkw, hsub, hpeq.symm⟩
  cases q
  exact hq

/-- Counterexample to claim C5 as stated: with the word "policymaking" in
the title, the title-only re-scan does match the keyword "policy" inside
the longer word (recording its suffixed entry), even though no
word-boundary-delimited occurrence exists. -/
theorem C5_counterexample :
    (check_relevance_weighted "policymaking" "").2.1 = ["policy (title)"] ∧
    re_search_bounded "policy" "policymaking" = false := by
  exact ⟨by decide, by decide⟩

/-- Claim C5 (amended): the combined title-plus-content scan is
case-insensitive and word-boundary-delimited, so content "policymaking"
matches nothing; but the separate title-only re-scan uses plain substring
containment, so there a keyword can match inside a longer word.  Every
reported match is either a table keyword with a word-bounded occurrence in
the combined lower-cased text, or a suffixed table keyword contained as a
plain substring of the lower-cased title. -/
theorem C5_amended_word_boundary :
    (∀ (title content m : String),
      m ∈ (check_relevance_weighted title content).2.1 →
      ∃ level kws kw, (level, kws) ∈ RELEVANCE_KEYWORDS ∧ kw ∈ kws ∧
        ((m = kw ∧
          re_search_bounded (pyLower kw) (pyLower (title ++ " " ++ content)) = true) ∨
         (m = kw ++ " (title)" ∧ pySubstr (pyLower kw) (pyLower title) = true))) ∧
    (check_relevance_weighted "" "policymaking").2.1 = [] := by
  refine ⟨?_, by decide⟩
  intro title content m hm
  simp only [check_relevance_weighted, List.map_append, List.mem_append,
    List.mem_map] at hm
  cases hm with
  | inl h =>
    obtain ⟨p, hp, hpm⟩ := h
    obtain ⟨level, kws, kw, hlk, hkw, hocc, hpe⟩ := basePairs_mem hp
    subst hpe
    exact ⟨level, kws, kw, hlk, hkw, Or.inl ⟨hpm.symm, hocc⟩⟩
  | inr h =>
    obtain ⟨p, hp, hpm⟩ := h
    obtain ⟨level, kws, kw, hlk, hkw, hocc, hpe⟩ := titlePairs_mem hp
    subst hpe
    exact ⟨level, kws, kw, hlk, hkw, Or.inr ⟨hpm.symm, hocc⟩⟩

/-- Witness for C5 at the concrete title-scan match of the counterexample
input. -/
theorem C5_witness :
    ∃ level kws kw, (level, kws) ∈ RELEVANCE_KEYWORDS ∧ kw ∈ kws ∧
      ((("policy (title)" : String) = kw ∧
        re_search_bounded (pyLower kw) (pyLower ("policymaking" ++ " " ++ "")) = true) ∨
       (("policy (title)" : String) = kw ++ " (title)" ∧
        pySubstr (pyLower kw) (pyLower "policymaking") = true)) :=
  C5_amended_word_boundary.1 "policymaking" "" "policy (title)" (by decide)

/-- Concrete evaluation of the combined scan on the scenario title. -/
theorem basePairs_nme :
    basePairs (pyLower ("New Mayor Elected" ++ " " ++ "")) = [("mayor", 3)] := rfl

/-- Concrete evaluation of the title re-scan on the scenario title. -/
theorem titlePairs_nme :
    titlePairs "New Mayor Elected" = [("mayor (title)", 3 * (1 / 2))] := rfl

/-- Claim C6: the returned score decomposes as the full-weight combined
scan total plus the title-bonus total; every title re-scan entry is the
matched term suffixed with " (title)" and contributes exactly half its
tier weight; and the concrete title "New Mayor Elected" with empty body
scores the high tier weight 3 plus the bonus 1.5 with the suffixed entry
reported. -/
theorem C6_title_bonus :
    (∀ title content : String,
      (check_relevance_weighted title content).2.2 =
        sumSnd (basePairs (pyLower (title ++ " " ++ content))) +
          sumSnd (titlePairs title)) ∧
    (∀ (title : String) (p : String × Rat), p ∈ titlePairs title →
      ∃ level kws kw, (level, kws) ∈ RELEVANCE_KEYWORDS ∧ kw ∈ kws ∧
        pySubstr (pyLower kw) (pyLower title) = true ∧
        p = (kw ++ " (title)", weightOf level * (1 / 2))) ∧
    check_relevance_weighted "New Mayor Elected" "" =
      (true, ["mayor", "mayor (title)"], 9 / 2) := by
  refine ⟨?_, ?_, ?_⟩
  · intro title content
    exact sumSnd_append _ _
  · intro title p hp
    exact titlePairs_mem hp
  · unfold check_relevance_weighted
    show (true,
        List.map Prod.fst (basePairs (pyLower ("New Mayor Elected" ++ " " ++ "")) ++
          titlePairs "New Mayor Elected"),
        sumSnd (basePairs (pyLower ("New Mayor Elected" ++ " " ++ "")) ++
          titlePairs "New Mayor Elected")) =
      (true, ["mayor", "mayor (title)"], 9 / 2)
    rw [basePairs_nme, titlePairs_nme]
    refine Prod.ext rfl (Prod.ext rfl ?_)
    show sumSnd ([("mayor", 3)] ++ [("mayor (title)", 3 * (1 / 2))]) = 9 / 2
    simp [sumSnd]
    norm_num

/-- Witness for C6 at the concrete title-bonus pair of the scenario
input. -/
theorem C6_witness :
    ∃ level kws kw, (level, kws) ∈ RELEVANCE_KEYWORDS ∧ kw ∈ kws ∧
      pySubstr (pyLower kw) (pyLower "New Mayor Elected") = true ∧
      ((("mayor (title)" : String), (3 : Rat) * (1 / 2)) : String × Rat) =
        (kw ++ " (title)", weightOf level * (1 / 2)) :=
  C6_title_bonus.2.1 "New Mayor Elected" ("mayor (title)", 3 * (1 / 2))
    (by rw [titlePairs_nme]; exact List.mem_singleton.mpr rfl)

/-- A processed article with the given URL, title and score (the remaining
columns are irrelevant to deduplication and sorting). -/
def mkArt (u t : String) (s : Rat) : ProcessedArticle :=
  ⟨u, "", t, "", none, [], s, "", 0⟩

/-- Claim C7: deduplication is two sequential passes keeping first
occurrences, first by exact URL and then by exact title, not a combined
key; hence a URL duplicate collapses to the first record and a title
duplicate with distinct URLs also collapses to the first record. -/
theorem C7_dedup_two_passes :
    (∀ rows : List ProcessedArticle,
      dedup_url_title rows =
        drop_duplicates_by (fun r => r.title)
          (drop_duplicates_by (fun r => r.url) rows)) ∧
    (∀ a b : ProcessedArticle, a.url = b.url → dedup_url_title [a, b] = [a]) ∧
    (∀ a b : ProcessedArticle, a.url ≠ b.url → a.title = b.title →
      dedup_url_title [a, b] = [a]) := by
  refine ⟨fun rows => rfl, ?_, ?_⟩
  · intro a b h
    simp [dedup_url_title, drop_duplicates_by, drop_duplicates_go, h]
  · intro a b hu ht
    simp [dedup_url_title, drop_duplicates_by, drop_duplicates_go, hu, ht,
      Ne.symm hu]

/-- Two concrete records sharing a URL with different titles. -/
def art_dup_a : ProcessedArticle := mkArt "http://example.com/a" "Alpha" 1

/-- The later record with the duplicated URL. -/
def art_dup_b : ProcessedArticle := mkArt "http://example.com/a" "Beta" 2

/-- Witness for C7: the concrete URL duplicate collapses to the first
record. -/
theorem C7_witness : dedup_url_title [art_dup_a, art_dup_b] = [art_dup_a] :=
  C7_dedup_two_passes.2.1 art_dup_a art_dup_b (by decide)

/-- First input candidate of the ranking scenario, score 5. -/
def cand_a : ProcessedArticle := mkArt "http://example.com/s1" "First" 5

/-- Second input candidate of the ranking scenario, score 2. -/
def cand_b : ProcessedArticle := mkArt "http://example.com/s2" "Second" 2

/-- Third input candidate of the ranking scenario, score 5. -/
def cand_c : ProcessedArticle := mkArt "http://example.com/s3" "Third" 5

/-- Inserting a record into a list commutes with filtering by a score
class: a record of the class lands in front of the class's other members
(every record placed before the insertion point has a strictly smaller
score, hence is outside the class), and a record outside the class leaves
the class's members untouched. -/
theorem filter_orderedInsert_score (x : ProcessedArticle) (sc : Rat) :
    ∀ s : List ProcessedArticle,
      (List.orderedInsert score_le x s).filter
          (fun r => decide (r.relevance_score = sc)) =
        if x.relevance_score = sc then
          x :: s.filter (fun r => decide (r.relevance_score = sc))
        else s.filter (fun r => decide (r.relevance_score = sc)) := by
  intro s
  induction s with
  | nil =>
    by_cases hx : x.relevance_score = sc <;> simp [List.orderedInsert, hx]
  | cons y s' ih =>
    by_cases hxy : score_le x y
    · rw [List.orderedInsert, if_pos hxy]
      by_cases hx : x.relevance_score = sc <;>
        by_cases hy : y.relevance_score = sc <;>
        simp [List.filter_cons, hx, hy]
    · rw [List.orderedInsert, if_neg hxy]
      by_cases hy : y.relevance_score = sc
      · by_cases hx : x.relevance_score = sc
        · exact absurd (le_of_eq (hx.trans hy.symm)) hxy
        · simp [List.filter_cons, hy, hx, ih]
      · by_cases hx : x.relevance_score = sc <;>
          simp [List.filter_cons, hy, hx, ih]

/-- The stable ascending sort preserves each score class as a subsequence:
filtering the sorted list by any score value returns exactly the filtered
input, in input order. -/
theorem filter_insertionSort_score (sc : Rat) :
    ∀ m : List ProcessedArticle,
      (List.insertionSort score_le m).filter
          (fun r => decide (r.relevance_score = sc)) =
        m.filter (fun r => decide (r.relevance_score = sc)) := by
  intro m
  induction m with
  | nil => rfl
  | cons x m' ih =>
    show (List.orderedInsert score_le x
        (List.insertionSort score_le m')).filter
        (fun r => decide (r.relevance_score = sc)) = _
    rw [filter_orderedInsert_score]
    by_cases hx : x.relevance_score = sc
    · rw [if_pos hx, ih]
      simp [List.filter_cons, hx]
    · rw [if_neg hx, ih]
      simp [List.filter_cons, hx]

/-- Claim C1: the final aggregation sort orders the surviving records by
relevance score descending (the output is a permutation of its input and
adjacent scores never increase) and it is stable: for every score value,
the records carrying that score appear in the output in exactly their
input order (the library's descending sort reverses the rows, takes a
stable ascending sort and reverses the result, which preserves ties); in
particular the three candidates with scores 5, 2, 5 aggregate to input
positions 0, 2, 1, keeping the first 5 ahead of the second. -/
theorem C1_stable_sort_descending :
    (∀ rows : List ProcessedArticle, List.Perm (sort_values_desc rows) rows) ∧
    (∀ rows : List ProcessedArticle,
      (sort_values_desc rows).Pairwise
        (fun a b => b.relevance_score ≤ a.relevance_score)) ∧
    (∀ (rows : List ProcessedArticle) (sc : Rat),
      (sort_values_desc rows).filter (fun r => decide (r.relevance_score = sc)) =
        rows.filter (fun r => decide (r.relevance_score = sc))) ∧
    aggregate_results [cand_a, cand_b, cand_c] = [cand_a, cand_c, cand_b] := by
  refine ⟨?_, ?_, ?_, by decide⟩
  · intro rows
    exact ((List.reverse_perm _).trans (List.perm_insertionSort _ _)).trans
      (List.reverse_perm _)
  · intro rows
    have hs := List.sorted_insertionSort score_le rows.reverse
    rw [sort_values_desc, List.pairwise_reverse]
    exact hs
  · intro rows sc
    rw [sort_values_desc, List.filter_reverse, filter_insertionSort_score,
      List.filter_reverse, List.reverse_reverse]

/-- Dropping whitespace from a run of the letter a changes nothing. -/
theorem dropWhile_replicate_a (n : Nat) :
    (List.replicate n 'a').dropWhile pyIsSpace = List.replicate n 'a' := by
  cases n with
  | zero => rfl
  | succ m =>
    rw [List.replicate_succ, List.dropWhile_cons,
      show pyIsSpace 'a' = false from rfl]
    simp

/-- Stripping a run of the letter a changes nothing. -/
theorem pyStripList_replicate_a (n : Nat) :
    pyStripList (List.replicate n 'a') = List.replicate n 'a' := by
  unfold pyStripList
  rw [dropWhile_replicate_a, List.reverse_replicate, dropWhile_replicate_a,
    List.reverse_replicate]

/-- Collapsing whitespace runs in a run of the letter a changes nothing. -/
theorem collapseWs_replicate_a (n : Nat) :
    collapseWs (List.replicate n 'a') = List.replicate n 'a' := by
  induction n with
  | zero => rfl
  | succ m ih =>
    cases m with
    | zero => rfl
    | succ k =>
      rw [List.replicate_succ, List.replicate_succ]
      simp only [collapseWs, show pyIsSpace 'a' = false from rfl,
        Bool.false_and, Bool.false_eq_true, if_false]
      rw [← List.replicate_succ, ih]

/-- A run of the letter a is never the boilerplate marker. -/
theorem replicate_a_ne_adWord (m : Nat) : List.replicate m 'a' ≠ adWord := by
  intro h
  have h13 : adWord.length = 13 := rfl
  have hlen : m = 13 := by
    have hl := congrArg List.length h
    rwa [List.length_replicate, h13] at hl
  subst hlen
  exact absurd h (by decide)

/-- The boilerplate test fails everywhere on a run of the letter a. -/
theorem isAdHere_replicate_a (n : Nat) :
    isAdHere (List.replicate n 'a') = false := by
  unfold isAdHere
  rw [List.take_replicate, List.map_replicate]
  show decide (List.replicate (min 13 n) 'a' = adWord) = false
  exact decide_eq_false (replicate_a_ne_adWord _)

/-- The boilerplate-removal worker leaves a run of the letter a intact,
with any amount of fuel. -/
theorem stripAdsGo_replicate_a (fuel : Nat) :
    ∀ n : Nat, stripAdsGo fuel (List.replicate n 'a') = List.replicate n 'a' := by
  induction fuel with
  | zero => intro n; cases n <;> rfl
  | succ f ih =>
    intro n
    cases n with
    | zero => rfl
    | succ m =>
      have had : isAdHere ('a' :: List.replicate m 'a') = false := by
        rw [← List.replicate_succ]
        exact isAdHere_replicate_a (m + 1)
      rw [List.replicate_succ]
      simp only [stripAdsGo, had, Bool.false_eq_true, if_false]
      rw [ih m]

/-- The full cleaning pass is the identity on a run of the letter a: no
truncation, no marker, no whitespace change. -/
theorem clean_text_replicate_a (n : Nat) :
    ArticleValidator.clean_text (String.mk (List.replicate n 'a')) =
      String.mk (List.replicate n 'a') := by
  unfold ArticleValidator.clean_text
  cases n with
  | zero => rfl
  | succ m =>
    have hne : String.mk (List.replicate (m + 1) 'a') ≠ "" := by
      intro h
      have hd := congrArg String.data h
      simp [List.replicate_succ] at hd
    rw [if_neg hne]
    show String.mk (stripAds (collapseWs (pyStripList (List.replicate (m + 1) 'a')))) = _
    rw [pyStripList_replicate_a, collapseWs_replicate_a]
    unfold stripAds
    rw [List.length_replicate, stripAdsGo_replicate_a]

/-- A content string of the given length without whitespace or markers. -/
def long_content (n : Nat) : String := String.mk (List.replicate n 'a')

/-- A raw candidate with valid URL, non-empty title and content of the
given length. -/
def raw_long (n : Nat) : RawArticle :=
  ⟨some "http://example.com/long", some "T", some (long_content n), none, none,
   none, none⟩

/-- Counterexample to claim C8 as stated: a candidate whose content is
longer than the configured maximum content length (default 1000) passes
through processing unchanged, with no truncation and no marker appended. -/
theorem C8_counterexample :
    (process_article_data (raw_long 1001) "t0").map (fun r => r.content) =
      some (long_content 1001) ∧
    default_config.max_content_length = 1000 ∧
    (long_content 1001).length = 1001 := by
  refine ⟨?_, rfl, ?_⟩
  · have hv : is_valid_url "http://example.com/long" = true := by decide
    simp only [process_article_data, raw_long, hv, if_true]
    rw [show ArticleValidator.clean_text (long_content 1001) = long_content 1001
      from clean_text_replicate_a 1001]
    rfl
  · show (List.replicate 1001 'a').length = 1001
    exact List.length_replicate ..

/-- Claim C8 (amended): the content field is never truncated: processing
carries the cleaned raw content through unchanged in length, whatever the
configured maximum content length says, and no truncation marker exists;
in particular a marker-free, whitespace-free content of any length n
survives with length exactly n. -/
theorem C8_amended_no_truncation :
    (∀ (raw : RawArticle) (now : String) (rec : ProcessedArticle),
      process_article_data raw now = some rec →
      rec.content = ArticleValidator.clean_text (raw.content.getD "")) ∧
    (∀ n : Nat,
      (process_article_data (raw_long n) "t0").map (fun r => r.content.length) =
        some n) := by
  constructor
  · intro raw now rec hrec
    obtain ⟨u, t, c, src, pd, mk, rs⟩ := raw
    cases u with
    | none => cases hrec
    | some u =>
      cases t with
      | none => cases hrec
      | some t =>
        cases c with
        | none => cases hrec
        | some c =>
          by_cases hv : is_valid_url u
          · simp only [process_article_data, hv, if_true, Option.some.injEq] at hrec
            subst hrec
            rfl
          · simp [process_article_data, hv] at hrec
  · intro n
    have hv : is_valid_url "http://example.com/long" = true := by decide
    simp only [process_article_data, raw_long, hv, if_true, Option.map_some]
    rw [show ArticleValidator.clean_text (long_content n) = long_content n
      from clean_text_replicate_a n]
    show some (List.replicate n 'a').length = some n
    rw [List.length_replicate]

/-- A raw candidate with plain short fields for the C8 witness. -/
def raw_short : RawArticle :=
  ⟨some "http://example.com/b", some "T", some "abc", none, none, none, none⟩

/-- Witness for C8: on a concrete surviving candidate the emitted content
is exactly the cleaned raw content. -/
theorem C8_witness :
    (ProcessedArticle.mk "http://example.com/b" "Unknown" "T" "abc" none [] 0
      "t0" 3).content = ArticleValidator.clean_text ((some "abc").getD "") :=
  C8_amended_no_truncation.1 raw_short "t0"
    ⟨"http://example.com/b", "Unknown", "T", "abc", none, [], 0, "t0", 3⟩
    (by decide)

end NewsScraper
